import Mathlib

/-
Verification of the statistical core of the reshotka repository against its
specification.  The shallow embedding below is translated from
src/src/parser.rs; f64 arithmetic is modelled over the rationals, Rust panics
(row index out of range, usize underflow) are modelled by Option/error
markers, and the unseeded random number generator is modelled as an explicit
stream of natural numbers.  Components of the repository that are not under
src/ (the statistics, bootstrap, observables and wilsonflow modules) are
modelled from the specification where the spec pins them down, and passed as
explicit function parameters where it does not (the effective-mass solver em,
the flow functions cw and w0fn, whose result types are fixed by their call
sites in src/src/parser.rs).
-/

set_option maxHeartbeats 2000000
set_option maxRecDepth 4000

/-- Modelled from the spec: statistics::mean is not under src/.
mean(xs) = sum / length.  (f64 gives NaN on an empty slice; the rational
model yields 0 there by the division-by-zero convention; no claim below
depends on the empty case.) -/
def mean (xs : List ℚ) : ℚ := xs.sum / xs.length

/-- Modelled from the spec: statistics::standard_deviation is not under src/.
The code returns sqrt(sum (x - mean)^2 / (n - 1 when sample-corrected, else
n)); the model carries the square of the standard deviation so as to stay in
ℚ (the square root is applied only at the serialization boundary and no claim
compares error magnitudes numerically). -/
def standard_deviation_sq (xs : List ℚ) (corrected : Bool) : ℚ :=
  (xs.map (fun x => (x - mean xs) ^ 2)).sum /
    (if corrected then (xs.length : ℚ) - 1 else (xs.length : ℚ))

/-- Modelled from the spec: statistics::standard_error is not under src/.
standardError(xs) = standardDeviation(xs, true) / sqrt(len xs), modelled by
its square. -/
def standard_error_sq (xs : List ℚ) : ℚ := standard_deviation_sq xs true / xs.length

/-- Modelled from the spec: statistics::weighted_mean is not under src/.
weight_i = 1 / error_i ^ 2; the first component is sum(w_i v_i) / sum(w_i);
the second component is 1/sqrt(sum w_i) in the code, modelled here by its
square 1/sum(w_i). -/
def weighted_mean (values errors : List ℚ) : ℚ × ℚ :=
  let weights := errors.map (fun e => 1 / e ^ 2)
  ((List.zipWith (fun v w => v * w) values weights).sum / weights.sum, 1 / weights.sum)

/-- Sequence a list of Options; none as soon as any element is none.  This
models a Rust panic anywhere inside a (parallel) trial loop aborting the whole
run, and an early-returning collect. -/
def collectOpt {α : Type} : List (Option α) → Option (List α)
  | [] => some []
  | none :: _ => none
  | some x :: rest => (collectOpt rest).map (fun l => x :: l)

/-- Sequence a list of Except values; the first error wins.  This models the
early-returning for-loops over tau in src/src/parser.rs. -/
def collectE {α : Type} : List (Except Unit α) → Except Unit (List α)
  | [] => .ok []
  | .error e :: _ => .error e
  | .ok v :: rest => (collectE rest).map (fun l => v :: l)

/-- Modelled from the spec: the correlator Series data model (io module) is
not under src/.  data is the rectangular table: one row per configuration,
each row holding the per-time-slice folded values. -/
structure Series where
  nconfs : ℕ
  each_len : ℕ
  data : List (List ℚ)
  deriving DecidableEq

/-- Well-formedness of a loaded Series: the table really is nconfs rows. -/
def series_wf (s : Series) : Prop :=
  s.data.length = s.nconfs ∧ ∀ r ∈ s.data, r.length = s.each_len

instance (s : Series) : Decidable (series_wf s) := by
  unfold series_wf; infer_instance

/-- Modelled from the spec: a Measurement is the output of one resampling draw
applied to a series (observables module, not under src/): per-column point
values and associated errors (here squared standard errors, see
standard_error_sq). -/
structure Measurement where
  values : List ℚ
  errors : List ℚ
  deriving DecidableEq

/-- Modelled from the spec: subsampleStats / get_subsample_mean_stderr_from_samples
(observables module, not under src/): for each column the mean and (squared)
standard error across the rows selected by the draw, repeated indices
contributing repeated values.  A draw index beyond the table models the Rust
row-indexing panic: none. -/
def Series.get_subsample_mean_stderr_from_samples (s : Series) (samples : List ℕ) :
    Option Measurement :=
  (collectOpt (samples.map (fun i => s.data[i]?))).map (fun rows =>
    { values := (List.range s.each_len).map (fun j => mean (rows.map (fun r => r.getD j 0)))
      errors := (List.range s.each_len).map (fun j => standard_error_sq (rows.map (fun r => r.getD j 0))) })

/-- Modelled from the spec: contiguous blocks of width bw over a list, the
last block truncated (the Rust slice chunks iterator).  Structural fuel
recursion: fuel equal to the list length always suffices because each step
consumes at least one element; bw = 0 cannot occur in the source (Rust chunks
panics there) and produces no blocks. -/
def chunkAux {α : Type} (bw : ℕ) : ℕ → List α → List (List α)
  | 0, _ => []
  | _ + 1, [] => []
  | fuel + 1, x :: xs => (x :: xs.take (bw - 1)) :: chunkAux bw fuel (xs.drop (bw - 1))

/-- The blocks of width bw of a list (last block truncated). -/
def chunk {α : Type} (bw : ℕ) (l : List α) : List (List α) :=
  if bw = 0 then [] else chunkAux bw l.length l

/-- Modelled from the spec: bootstrap::get_samples is not under src/.
Partition [0, nconfs) into contiguous blocks of width binwidth, repeatedly
append a uniformly chosen block, and truncate to nconfs.  The unseeded RNG is
the explicit stream rng (rng k is the k-th random number drawn).  Appending
nconfs blocks and truncating yields the same list as appending until the
length first reaches nconfs, since every block is nonempty. -/
def get_samples (nconfs binwidth : ℕ) (rng : ℕ → ℕ) : List ℕ :=
  let blocks := chunk binwidth (List.range nconfs)
  (((List.range nconfs).map (fun k => blocks.getD (rng k % blocks.length) [])).flatten).take nconfs

/-- The one-argument convenience form of the resampler (spec section 4.1):
draw internally, then subsample.  Source: Series::get_subsample_mean_stderr
(observables module, not under src/), as called at src/src/parser.rs:252. -/
def Series.get_subsample_mean_stderr (s : Series) (binwidth : ℕ) (rng : ℕ → ℕ) :
    Option Measurement :=
  Series.get_subsample_mean_stderr_from_samples s (get_samples s.nconfs binwidth rng)

/-- The flow-observable selector (source enum WilsonFlowObservables); only the
variants reachable from src/src/parser.rs are modelled. -/
inductive WilsonFlowObservables
  | T2Esym
  | Tc
  deriving DecidableEq

/-- Modelled from the spec: the loaded Wilson-flow data (io module, not under
src/): per-observable series and the flow-time grid, with the fields tc,
t2_esym and t exactly as accessed by src/src/parser.rs. -/
structure WilsonFlowData where
  tc : Series
  t2_esym : Series
  t : List ℚ
  deriving DecidableEq

/-- Subsampling a selected flow observable with a given draw
(src/src/parser.rs:295, 430). -/
def WilsonFlowData.get_subsample_mean_stderr_from_samples (wf : WilsonFlowData)
    (samples : List ℕ) (obs : WilsonFlowObservables) : Option Measurement :=
  match obs with
  | .T2Esym => Series.get_subsample_mean_stderr_from_samples wf.t2_esym samples
  | .Tc => Series.get_subsample_mean_stderr_from_samples wf.tc samples

/-- The success/failure tally of compute_effective_mass_command
(src/src/parser.rs:256-263): the successful values in order, and the count of
failed trials. -/
def collect_results : List (Except Unit ℚ) → List ℚ × ℕ
  | [] => ([], 0)
  | .ok v :: rest => (v :: (collect_results rest).1, (collect_results rest).2)
  | .error _ :: rest => ((collect_results rest).1, (collect_results rest).2 + 1)

/-- The reported failure percentage (src/src/parser.rs:274):
nfailures * 100 / n_boot, computed in f64, exact over ℚ. -/
def failure_percentage (nfailures n_boot : ℕ) : ℚ :=
  (nfailures : ℚ) * 100 / (n_boot : ℚ)

/-- Source: struct EffectiveMassRow (src/src/parser.rs:189-199). -/
structure EffectiveMassRow where
  tau : ℕ
  mass : ℚ
  error : ℚ
  failures : ℚ
  deriving DecidableEq

/-- Fatal outcomes of a run: a failed assert_eq at setup, or a Rust panic
raised inside the trial phase or while serializing rows (row index out of
range / usize underflow).  The constructors record where the run died. -/
inductive RunError
  | assertFailed
  | trialIndexError
  | rowIndexError
  deriving DecidableEq

/-- One trial of compute_effective_mass_command (src/src/parser.rs:248-253):
a fresh internal draw (one-argument resampler form), then the solver.  The
effective-mass solver (spectroscopy module, not under src/) is the parameter
em, applied to (mu, global_t, tau, precision) exactly as at line 253. -/
def cem_trial (em : List ℚ → ℕ → ℕ → ℚ → Except Unit ℚ) (channel : Series)
    (global_t binwidth tau : ℕ) (eps : ℚ) (rng : ℕ → ℕ) :
    Option (Except Unit ℚ) :=
  (Series.get_subsample_mean_stderr channel binwidth rng).map
    (fun m => em m.values global_t tau eps)

/-- The per-trial aggregation of compute_effective_mass_command
(src/src/parser.rs:256-266): mean and (squared) sample-corrected standard
deviation of the successful values, plus the failure count. -/
def aggregate_results (results : List (Except Unit ℚ)) : ℚ × ℚ × ℕ :=
  (mean (collect_results results).1,
   standard_deviation_sq (collect_results results).1 true,
   (collect_results results).2)

/-- The n_boot trials for one tau and their aggregation
(src/src/parser.rs:246-266). -/
def cem_tau_stats (em : List ℚ → ℕ → ℕ → ℚ → Except Unit ℚ) (channel : Series)
    (global_t binwidth n_boot tau : ℕ) (eps : ℚ) (rngs : ℕ → ℕ → ℕ) :
    Option (ℚ × ℚ × ℕ) :=
  (collectOpt ((List.range n_boot).map
      (fun b => cem_trial em channel global_t binwidth tau eps (rngs b)))).map
    aggregate_results

/-- The trial phase of compute_effective_mass_command
(src/src/parser.rs:245-267): tau runs from 1 to effective_mass_t_max and the
aggregate for tau is pushed at position tau - 1.  effective_mass_t_min plays
no part here. -/
def cem_stats (em : List ℚ → ℕ → ℕ → ℚ → Except Unit ℚ) (channel : Series)
    (global_t binwidth n_boot t_max : ℕ) (eps : ℚ) (rngs : ℕ → ℕ → ℕ → ℕ) :
    Option (List (ℚ × ℚ × ℕ)) :=
  collectOpt ((List.range t_max).map
    (fun i => cem_tau_stats em channel global_t binwidth n_boot (i + 1) eps (rngs (i + 1))))

/-- The serialization loop of compute_effective_mass_command
(src/src/parser.rs:269-278): one row per tau in [t_min, t_max], reading
position tau - 1 of the trial-phase vectors.  tau - 1 is usize arithmetic in
the source: at tau = 0 it underflows and the command panics (none). -/
def effective_mass_rows (stats : List (ℚ × ℚ × ℕ)) (n_boot t_min t_max : ℕ) :
    Option (List EffectiveMassRow) :=
  collectOpt ((List.range' t_min (t_max + 1 - t_min)).map (fun tau =>
    if tau = 0 then none
    else (stats.get? (tau - 1)).map (fun s =>
      { tau := tau, mass := s.1, error := s.2.1,
        failures := failure_percentage s.2.2 n_boot })))

/-- compute_effective_mass_command (src/src/parser.rs:236-279).  Setup
performs exactly one check, assert_eq(global_t, (each_len - 1) * 2) at line
244; loading and thermalisation happen at the excluded boundary. -/
def compute_effective_mass_command (em : List ℚ → ℕ → ℕ → ℚ → Except Unit ℚ)
    (channel : Series) (global_t binwidth n_boot : ℕ) (eps : ℚ)
    (t_min t_max : ℕ) (rngs : ℕ → ℕ → ℕ → ℕ) :
    Except RunError (List EffectiveMassRow) :=
  if global_t = (channel.each_len - 1) * 2 then
    match cem_stats em channel global_t binwidth n_boot t_max eps rngs with
    | none => .error .trialIndexError
    | some stats =>
      match effective_mass_rows stats n_boot t_min t_max with
      | none => .error .rowIndexError
      | some rows => .ok rows
  else .error .assertFailed

/-- The effective-mass loop shared by the bootstrap-fits commands
(src/src/parser.rs:308-314, 343-349, 383-405): solve for every tau in
[t_min, t_max]; the first solver failure fails the whole trial. -/
def mass_loop (em : List ℚ → ℕ → ℕ → ℚ → Except Unit ℚ) (mu : List ℚ)
    (global_t t_min t_max : ℕ) (eps : ℚ) : Except Unit (List ℚ) :=
  collectE ((List.range' t_min (t_max + 1 - t_min)).map
    (fun tau => em mu global_t tau eps))

/-- The body of a bootstrap_fits_with_wf_command trial as a function of the
two draws it consumes (flow series draw, correlator draw).  calculate_w and
calculate_w0 (wilsonflow module, not under src/) are the parameters cw and
w0fn; their call sites in src/src/parser.rs fix w0fn's result to a plain
numeric value (the trial multiplies it into an f64 and calculate_w0_command
collects it into a Vec of f64).  Outer none: a panic; inner none: the trial
counted as failed. -/
def bootstrap_fits_with_wf_trial_draws (em : List ℚ → ℕ → ℕ → ℚ → Except Unit ℚ)
    (cw : List ℚ → List ℚ → List ℚ) (w0fn : List ℚ → ℚ → ℚ)
    (channel : Series) (wf : WilsonFlowData) (global_t t_min t_max : ℕ)
    (eps w_ref : ℚ) (wf_samples ch_samples : List ℕ) : Option (Option ℚ) :=
  match wf.get_subsample_mean_stderr_from_samples wf_samples .T2Esym with
  | none => none
  | some wf_meas =>
    let w0 := w0fn (cw wf_meas.values wf.t) w_ref
    match Series.get_subsample_mean_stderr_from_samples channel ch_samples with
    | none => none
    | some ch_meas =>
      match mass_loop em ch_meas.values global_t t_min t_max eps with
      | .error _ => some none
      | .ok masses => some (some (mean masses * w0))

/-- One trial of bootstrap_fits_with_wf_command (src/src/parser.rs:291-316):
one draw is generated at the start of the trial from the correlator channel
nconfs and consumed by both the flow series (samples.clone()) and the
correlator series. -/
def bootstrap_fits_with_wf_trial (em : List ℚ → ℕ → ℕ → ℚ → Except Unit ℚ)
    (cw : List ℚ → List ℚ → List ℚ) (w0fn : List ℚ → ℚ → ℚ)
    (channel : Series) (wf : WilsonFlowData) (global_t binwidth t_min t_max : ℕ)
    (eps w_ref : ℚ) (rng : ℕ → ℕ) : Option (Option ℚ) :=
  let samples := get_samples channel.nconfs binwidth rng
  bootstrap_fits_with_wf_trial_draws em cw w0fn channel wf global_t t_min t_max
    eps w_ref samples samples

/-- bootstrap_fits_with_wf_command (src/src/parser.rs:281-329): the single
setup check assert_eq(channel.nconfs, wf.tc.nconfs) at line 286, then n_boot
trials, then the successful samples in order. -/
def bootstrap_fits_with_wf_command (em : List ℚ → ℕ → ℕ → ℚ → Except Unit ℚ)
    (cw : List ℚ → List ℚ → List ℚ) (w0fn : List ℚ → ℚ → ℚ)
    (channel : Series) (wf : WilsonFlowData)
    (global_t binwidth n_boot t_min t_max : ℕ) (eps w_ref : ℚ)
    (rngs : ℕ → ℕ → ℕ) : Except RunError (List ℚ) :=
  if channel.nconfs = wf.tc.nconfs then
    match collectOpt ((List.range n_boot).map (fun b =>
        bootstrap_fits_with_wf_trial em cw w0fn channel wf global_t binwidth
          t_min t_max eps w_ref (rngs b))) with
    | none => .error .trialIndexError
    | some outcomes => .ok (outcomes.filterMap id)
  else .error .assertFailed

/-- One trial of bootstrap_fits_command (src/src/parser.rs:335-351). -/
def bootstrap_fits_trial (em : List ℚ → ℕ → ℕ → ℚ → Except Unit ℚ)
    (channel : Series) (global_t binwidth t_min t_max : ℕ) (eps : ℚ)
    (rng : ℕ → ℕ) : Option (Option ℚ) :=
  let samples := get_samples channel.nconfs binwidth rng
  match Series.get_subsample_mean_stderr_from_samples channel samples with
  | none => none
  | some m =>
    match mass_loop em m.values global_t t_min t_max eps with
    | .error _ => some none
    | .ok masses => some (some (mean masses))

/-- bootstrap_fits_command (src/src/parser.rs:330-364): no setup check of any
kind, n_boot trials, successful samples in order. -/
def bootstrap_fits_command (em : List ℚ → ℕ → ℕ → ℚ → Except Unit ℚ)
    (channel : Series) (global_t binwidth n_boot t_min t_max : ℕ) (eps : ℚ)
    (rngs : ℕ → ℕ → ℕ) : Except RunError (List ℚ) :=
  match collectOpt ((List.range n_boot).map (fun b =>
      bootstrap_fits_trial em channel global_t binwidth t_min t_max eps (rngs b))) with
  | none => .error .trialIndexError
  | some outcomes => .ok (outcomes.filterMap id)

/-- The body of a bootstrap_fits_ratio_command trial as a function of the two
draws it consumes (numerator draw, denominator draw). -/
def bootstrap_fits_ratio_trial_draws (em : List ℚ → ℕ → ℕ → ℚ → Except Unit ℚ)
    (num den : Series) (global_t : ℕ)
    (n_tmin n_tmax d_tmin d_tmax : ℕ) (eps : ℚ)
    (num_samples den_samples : List ℕ) : Option (Option ℚ) :=
  match Series.get_subsample_mean_stderr_from_samples num num_samples with
  | none => none
  | some num_meas =>
    match mass_loop em num_meas.values global_t n_tmin n_tmax eps with
    | .error _ => some none
    | .ok num_masses =>
      match Series.get_subsample_mean_stderr_from_samples den den_samples with
      | none => none
      | some den_meas =>
        match mass_loop em den_meas.values global_t d_tmin d_tmax eps with
        | .error _ => some none
        | .ok den_masses => some (some (mean num_masses / mean den_masses))

/-- One trial of bootstrap_fits_ratio_command (src/src/parser.rs:374-407):
the single draw is generated from the NUMERATOR channel nconfs (line 377) and
consumed by both channels; no check relates it to the denominator's nconfs. -/
def bootstrap_fits_ratio_trial (em : List ℚ → ℕ → ℕ → ℚ → Except Unit ℚ)
    (num den : Series) (global_t binwidth : ℕ)
    (n_tmin n_tmax d_tmin d_tmax : ℕ) (eps : ℚ) (rng : ℕ → ℕ) :
    Option (Option ℚ) :=
  let samples := get_samples num.nconfs binwidth rng
  bootstrap_fits_ratio_trial_draws em num den global_t n_tmin n_tmax d_tmin
    d_tmax eps samples samples

/-- calculate_w0_command (src/src/parser.rs:421-446): n_boot trials, each
contributing the plain numeric calculate_w0 result; the collected output is
one sample per trial (a Vec of f64 in the source) with no failure tally of
any kind. -/
def calculate_w0_command (cw : List ℚ → List ℚ → List ℚ)
    (w0fn : List ℚ → ℚ → ℚ) (wf : WilsonFlowData) (binwidth n_boot : ℕ)
    (w_ref : ℚ) (rngs : ℕ → ℕ → ℕ) : Option (List ℚ) :=
  collectOpt ((List.range n_boot).map (fun b =>
    (wf.get_subsample_mean_stderr_from_samples
        (get_samples wf.t2_esym.nconfs binwidth (rngs b)) .T2Esym).map
      (fun m => w0fn (cw m.values wf.t) w_ref)))

/-- Modelled from the spec: the crossing scan of calculate_w0 (wilsonflow
module, not under src/): whether some pair of adjacent grid points brackets
w_ref.  Used only to state which inputs the spec calls solver failures. -/
def has_crossing (w : List ℚ) (w_ref : ℚ) : Bool :=
  (List.range (w.length - 1)).any
    (fun i => decide (w.getD i 0 ≤ w_ref) && decide (w_ref ≤ w.getD (i + 1) 0))

/-! ### Helper lemmas about the embedding -/

theorem collect_results_length (rs : List (Except Unit ℚ)) :
    (collect_results rs).1.length + (collect_results rs).2 = rs.length := by
  induction rs with
  | nil => rfl
  | cons r rest ih =>
    cases r with
    | ok v => simp only [collect_results, List.length_cons, List.length_cons]; omega
    | error e => simp only [collect_results, List.length_cons]; omega

theorem collect_results_fst (rs : List (Except Unit ℚ)) :
    (collect_results rs).1
      = rs.filterMap (fun r => match r with | .ok v => some v | .error _ => none) := by
  induction rs with
  | nil => rfl
  | cons r rest ih =>
    cases r with
    | ok v => simp [collect_results, List.filterMap_cons, ih]
    | error e => simp [collect_results, List.filterMap_cons, ih]

theorem collectOpt_eq_none_of_mem {α : Type} {l : List (Option α)}
    (h : none ∈ l) : collectOpt l = none := by
  induction l with
  | nil => cases h
  | cons o rest ih =>
    cases o with
    | none => rfl
    | some x =>
      rcases List.mem_cons.mp h with h | h
      · exact absurd h (by simp)
      · simp [collectOpt, ih h]

theorem collectOpt_isSome_of_all {α : Type} {l : List (Option α)}
    (h : ∀ o ∈ l, o.isSome) : ∃ res, collectOpt l = some res := by
  induction l with
  | nil => exact ⟨[], rfl⟩
  | cons o rest ih =>
    cases o with
    | none => simpa using h none (List.mem_cons_self _ _)
    | some x =>
      obtain ⟨res, hres⟩ := ih (fun o ho => h o (List.mem_cons_of_mem _ ho))
      exact ⟨x :: res, by simp [collectOpt, hres]⟩

theorem collectOpt_get {α : Type} {l : List (Option α)} {res : List α}
    (h : collectOpt l = some res) :
    res.length = l.length ∧ ∀ (i : ℕ) (o : α), l[i]? = some (some o) → res[i]? = some o := by
  induction l generalizing res with
  | nil =>
    simp only [collectOpt, Option.some_inj] at h
    subst h
    refine ⟨rfl, ?_⟩
    intro i o ho
    simp at ho
  | cons hd rest ih =>
    cases hd with
    | none => simp [collectOpt] at h
    | some x =>
      simp only [collectOpt, Option.map_eq_some'] at h
      obtain ⟨r, hr, hres⟩ := h
      subst hres
      obtain ⟨hlen, hget⟩ := ih hr
      refine ⟨by simp [hlen], ?_⟩
      intro i o ho
      cases i with
      | zero =>
        simp only [List.getElem?_cons_zero, Option.some_inj] at ho ⊢
        exact ho
      | succ j =>
        simp only [List.getElem?_cons_succ] at ho ⊢
        exact hget j o ho

theorem collectE_ok_iff {α : Type} (l : List (Except Unit α)) :
    (∃ res, collectE l = .ok res) ↔ ∀ x ∈ l, ∃ v, x = .ok v := by
  induction l with
  | nil => simp [collectE]
  | cons hd rest ih =>
    cases hd with
    | error e =>
      simp only [collectE]
      constructor
      · rintro ⟨res, hres⟩; cases hres
      · intro h
        obtain ⟨v, hv⟩ := h (Except.error e) (List.mem_cons_self _ _)
        cases hv
    | ok v =>
      simp only [collectE]
      constructor
      · rintro ⟨res, hres⟩
        intro x hx
        rcases List.mem_cons.mp hx with hx | hx
        · exact ⟨v, hx⟩
        · cases hcr : collectE rest with
          | error e => rw [hcr] at hres; cases hres
          | ok r => exact (ih.mp ⟨r, hcr⟩) x hx
      · intro h
        obtain ⟨r, hr⟩ := ih.mpr (fun x hx => h x (List.mem_cons_of_mem _ hx))
        exact ⟨v :: r, by simp [hr, Except.map]⟩

theorem length_le_sum_of_one_le (l : List ℕ) (h : ∀ x ∈ l, 1 ≤ x) :
    l.length ≤ l.sum := by
  induction l with
  | nil => simp
  | cons x xs ih =>
    have hx := h x (List.mem_cons_self _ _)
    have := ih (fun y hy => h y (List.mem_cons_of_mem _ hy))
    simp only [List.length_cons, List.sum_cons]
    omega

theorem chunkAux_ne_nil {α : Type} (bw fuel : ℕ) (l : List α) :
    ∀ c ∈ chunkAux bw fuel l, c ≠ [] := by
  induction fuel generalizing l with
  | zero => intro c hc; simp [chunkAux] at hc
  | succ fuel ih =>
    cases l with
    | nil => intro c hc; simp [chunkAux] at hc
    | cons y ys =>
      intro c hc
      rcases List.mem_cons.mp hc with h | h
      · subst h; simp
      · exact ih _ c h

theorem chunkAux_subset {α : Type} (bw fuel : ℕ) (l : List α) :
    ∀ c ∈ chunkAux bw fuel l, ∀ x ∈ c, x ∈ l := by
  induction fuel generalizing l with
  | zero => intro c hc; simp [chunkAux] at hc
  | succ fuel ih =>
    cases l with
    | nil => intro c hc; simp [chunkAux] at hc
    | cons y ys =>
      intro c hc x hx
      rcases List.mem_cons.mp hc with h | h
      · subst h
        rcases List.mem_cons.mp hx with h | h
        · exact h ▸ List.mem_cons_self _ _
        · exact List.mem_cons_of_mem _ (List.take_subset _ _ h)
      · exact List.mem_cons_of_mem _
          (List.drop_subset _ _ (ih (ys.drop (bw - 1)) c h x hx))

theorem chunk_ne_nil_mem {α : Type} (bw : ℕ) (l : List α) :
    ∀ c ∈ chunk bw l, c ≠ [] := by
  unfold chunk
  split
  · intro c hc; simp at hc
  · exact chunkAux_ne_nil bw l.length l

theorem chunk_subset {α : Type} (bw : ℕ) (l : List α) :
    ∀ c ∈ chunk bw l, ∀ x ∈ c, x ∈ l := by
  unfold chunk
  split
  · intro c hc; simp at hc
  · exact chunkAux_subset bw l.length l

theorem chunk_ne_nil {α : Type} (bw : ℕ) (l : List α) (hb : bw ≠ 0) (hl : l ≠ []) :
    chunk bw l ≠ [] := by
  unfold chunk
  rw [if_neg hb]
  cases l with
  | nil => exact absurd rfl hl
  | cons y ys => simp [chunkAux]

theorem get_samples_mem_lt (nconfs binwidth : ℕ) (rng : ℕ → ℕ) :
    ∀ i ∈ get_samples nconfs binwidth rng, i < nconfs := by
  intro i hi
  unfold get_samples at hi
  have hi2 := List.take_subset _ _ hi
  rw [List.mem_flatten] at hi2
  obtain ⟨blk, hblk, hmem⟩ := hi2
  rw [List.mem_map] at hblk
  obtain ⟨k, _, hpick⟩ := hblk
  by_cases hbl : chunk binwidth (List.range nconfs) = []
  · rw [hbl] at hpick
    simp at hpick
    simp [hpick] at hmem
  · have hpos : 0 < (chunk binwidth (List.range nconfs)).length :=
      List.length_pos.mpr hbl
    have hidx := Nat.mod_lt (rng k) hpos
    rw [List.getD_eq_getElem _ _ hidx] at hpick
    have hin : blk ∈ chunk binwidth (List.range nconfs) :=
      hpick ▸ List.getElem_mem _
    exact List.mem_range.mp (chunk_subset _ _ blk hin i hmem)

theorem get_samples_length (nconfs binwidth : ℕ) (rng : ℕ → ℕ)
    (hn : 0 < nconfs) (hb : 1 ≤ binwidth) :
    (get_samples nconfs binwidth rng).length = nconfs := by
  unfold get_samples
  rw [List.length_take, List.length_flatten]
  have hblocks : chunk binwidth (List.range nconfs) ≠ [] := by
    refine chunk_ne_nil _ _ (by omega) ?_
    simpa using List.range_eq_nil.not.mpr (by omega)
  have hone : ∀ x ∈ (((List.range nconfs).map (fun k =>
      (chunk binwidth (List.range nconfs)).getD
        (rng k % (chunk binwidth (List.range nconfs)).length) [])).map List.length),
      1 ≤ x := by
    intro x hx
    rw [List.mem_map] at hx
    obtain ⟨blk, hblk, hlen⟩ := hx
    rw [List.mem_map] at hblk
    obtain ⟨k, _, hpick⟩ := hblk
    have hpos : 0 < (chunk binwidth (List.range nconfs)).length :=
      List.length_pos.mpr hblocks
    have hidx := Nat.mod_lt (rng k) hpos
    rw [List.getD_eq_getElem _ _ hidx] at hpick
    have hin : blk ∈ chunk binwidth (List.range nconfs) :=
      hpick ▸ List.getElem_mem _
    have := chunk_ne_nil_mem _ _ blk hin
    rw [← hlen]
    exact Nat.succ_le_of_lt (List.length_pos.mpr this)
  have hsum := length_le_sum_of_one_le _ hone
  simp only [List.length_map, List.length_range] at hsum
  omega

theorem subsample_isSome (s : Series) (samples : List ℕ)
    (h : ∀ i ∈ samples, i < s.data.length) :
    ∃ m, s.get_subsample_mean_stderr_from_samples samples = some m := by
  unfold Series.get_subsample_mean_stderr_from_samples
  have hall : ∀ o ∈ samples.map (fun i => s.data[i]?), o.isSome := by
    intro o ho
    rw [List.mem_map] at ho
    obtain ⟨i, hi, rfl⟩ := ho
    rw [List.getElem?_eq_getElem (h i hi)]
    rfl
  obtain ⟨rows, hrows⟩ := collectOpt_isSome_of_all hall
  exact ⟨_, by rw [hrows]; rfl⟩

theorem subsample_none_of_oob (s : Series) (samples : List ℕ)
    (h : ∃ i ∈ samples, s.data.length ≤ i) :
    s.get_subsample_mean_stderr_from_samples samples = none := by
  unfold Series.get_subsample_mean_stderr_from_samples
  obtain ⟨i, hi, hlen⟩ := h
  have : collectOpt (samples.map (fun i => s.data[i]?)) = none := by
    apply collectOpt_eq_none_of_mem
    rw [List.mem_map]
    exact ⟨i, hi, List.getElem?_eq_none hlen⟩
  rw [this]
  rfl

/-! ### Concrete inputs used by counterexamples and witnesses -/

/-- A solver stand-in that always converges to 1 (the solver is external to
the claims settled on the orchestration). -/
def em_const : List ℚ → ℕ → ℕ → ℚ → Except Unit ℚ := fun _ _ _ _ => Except.ok 1

/-- A solver stand-in that never converges. -/
def em_fail : List ℚ → ℕ → ℕ → ℚ → Except Unit ℚ := fun _ _ _ _ => Except.error ()

/-- A calculate_w stand-in returning the flow values unchanged. -/
def cw_id : List ℚ → List ℚ → List ℚ := fun w _ => w

/-- A calculate_w0 stand-in returning 0. -/
def w0_zero : List ℚ → ℚ → ℚ := fun _ _ => 0

/-- A random stream that always picks block 0. -/
def rng0 : ℕ → ℕ := fun _ => 0

/-- A random stream that always picks block 1. -/
def rng1 : ℕ → ℕ := fun _ => 1

/-- Per-(tau, trial) random streams that always pick block 0. -/
def rngs0 : ℕ → ℕ → ℕ → ℕ := fun _ _ _ => 0

/-- One configuration, two time slices. -/
def ch_one : Series := ⟨1, 2, [[1, 1]]⟩

/-- One configuration, five folded time slices (global period 8). -/
def ch_five : Series := ⟨1, 5, [[1, 1, 1, 1, 1]]⟩

/-- A flow data set whose W values stay below the reference value 100. -/
def wf_flat : WilsonFlowData := ⟨⟨1, 2, [[0, 0]]⟩, ⟨1, 2, [[5, 6]]⟩, [1, 2]⟩

/-- A flow data set whose tc series has two configurations. -/
def wf_two : WilsonFlowData := ⟨⟨2, 1, [[0], [0]]⟩, ⟨2, 1, [[5], [5]]⟩, [1]⟩

/-- A numerator channel with two configurations. -/
def num_two : Series := ⟨2, 1, [[1], [2]]⟩

/-- A denominator channel with a single configuration. -/
def den_one : Series := ⟨1, 1, [[1]]⟩

/-! ### The claims -/

/-- C1: every trial outcome of an effective-mass run is classified as exactly
one of success or failure: the number of successful values plus the failure
count equals n_boot, and the reported failure percentage is
failures * 100 / n_boot, which equals (1 - successes / n_boot) * 100. -/
theorem trial_outcomes_partition (results : List (Except Unit ℚ)) (n_boot : ℕ)
    (hlen : results.length = n_boot) (hpos : 0 < n_boot) :
    (collect_results results).1.length + (collect_results results).2 = n_boot ∧
    failure_percentage (collect_results results).2 n_boot
      = ((collect_results results).2 : ℚ) * 100 / (n_boot : ℚ) ∧
    failure_percentage (collect_results results).2 n_boot
      = (1 - ((collect_results results).1.length : ℚ) / (n_boot : ℚ)) * 100 := by
  have hpart := collect_results_length results
  rw [hlen] at hpart
  refine ⟨hpart, rfl, ?_⟩
  have hn : (n_boot : ℚ) ≠ 0 := Nat.cast_ne_zero.mpr (by omega)
  have hcast : ((collect_results results).1.length : ℚ)
      + ((collect_results results).2 : ℚ) = (n_boot : ℚ) := by
    exact_mod_cast congrArg (Nat.cast : ℕ → ℚ) hpart
  unfold failure_percentage
  field_simp
  linarith [hcast]

/-- Witness for C1 at a concrete run of three trials, one of which fails. -/
theorem trial_outcomes_partition_witness :
    ([Except.ok (1 : ℚ), Except.error (), Except.ok 2].length = 3 ∧ 0 < 3) ∧
    ((collect_results [Except.ok (1 : ℚ), Except.error (), Except.ok 2]).1.length
        + (collect_results [Except.ok (1 : ℚ), Except.error (), Except.ok 2]).2 = 3 ∧
      failure_percentage (collect_results [Except.ok (1 : ℚ), Except.error (), Except.ok 2]).2 3
        = ((collect_results [Except.ok (1 : ℚ), Except.error (), Except.ok 2]).2 : ℚ) * 100 / (3 : ℚ) ∧
      failure_percentage (collect_results [Except.ok (1 : ℚ), Except.error (), Except.ok 2]).2 3
        = (1 - ((collect_results [Except.ok (1 : ℚ), Except.error (), Except.ok 2]).1.length : ℚ) / (3 : ℚ)) * 100) :=
  ⟨⟨rfl, by omega⟩, trial_outcomes_partition _ 3 rfl (by omega)⟩

/-- C2: a joint (mass times w0) trial and a ratio trial both consume one and
the same draw for their two series: the draw generated once at the start of
the trial from the (first) channel's nconfs is the one applied to both
subsample computations. -/
theorem joint_trials_share_one_draw
    (em : List ℚ → ℕ → ℕ → ℚ → Except Unit ℚ) (cw : List ℚ → List ℚ → List ℚ)
    (w0fn : List ℚ → ℚ → ℚ) (channel : Series) (wf : WilsonFlowData)
    (num den : Series) (global_t binwidth t_min t_max : ℕ)
    (n_tmin n_tmax d_tmin d_tmax : ℕ) (eps w_ref : ℚ) (rng : ℕ → ℕ) :
    bootstrap_fits_with_wf_trial em cw w0fn channel wf global_t binwidth t_min t_max eps w_ref rng
      = bootstrap_fits_with_wf_trial_draws em cw w0fn channel wf global_t t_min t_max eps w_ref
          (get_samples channel.nconfs binwidth rng) (get_samples channel.nconfs binwidth rng) ∧
    bootstrap_fits_ratio_trial em num den global_t binwidth n_tmin n_tmax d_tmin d_tmax eps rng
      = bootstrap_fits_ratio_trial_draws em num den global_t n_tmin n_tmax d_tmin d_tmax eps
          (get_samples num.nconfs binwidth rng) (get_samples num.nconfs binwidth rng) :=
  ⟨rfl, rfl⟩

/-- C4: the per-tau point estimate and (squared) error are the mean and the
sample-corrected standard deviation of the successful trial values only, and
prepending an extra failed trial changes neither statistic, only the failure
count. -/
theorem aggregation_uses_successes_only (results : List (Except Unit ℚ)) :
    aggregate_results results
      = (mean (results.filterMap (fun r => match r with | .ok v => some v | .error _ => none)),
         standard_deviation_sq
           (results.filterMap (fun r => match r with | .ok v => some v | .error _ => none)) true,
         (collect_results results).2) ∧
    (aggregate_results (Except.error () :: results)).1 = (aggregate_results results).1 ∧
    (aggregate_results (Except.error () :: results)).2.1 = (aggregate_results results).2.1 ∧
    (collect_results (Except.error () :: results)).2 = (collect_results results).2 + 1 := by
  refine ⟨?_, rfl, rfl, rfl⟩
  unfold aggregate_results
  rw [collect_results_fst]

/-- C7: a block-bootstrap resample draw has length exactly nconfs and every
index in it lies in [0, nconfs), for every nconfs > 0, blockWidth >= 1 and
every random stream. -/
theorem resample_draw_contract (nconfs binwidth : ℕ) (rng : ℕ → ℕ)
    (hn : 0 < nconfs) (hb : 1 ≤ binwidth) :
    (get_samples nconfs binwidth rng).length = nconfs ∧
    ∀ i ∈ get_samples nconfs binwidth rng, i < nconfs :=
  ⟨get_samples_length nconfs binwidth rng hn hb, get_samples_mem_lt nconfs binwidth rng⟩

/-- Witness for C7 at nconfs = 3, blockWidth = 2. -/
theorem resample_draw_contract_witness :
    (0 < 3 ∧ 1 ≤ 2) ∧
    ((get_samples 3 2 rng0).length = 3 ∧ ∀ i ∈ get_samples 3 2 rng0, i < 3) :=
  ⟨⟨by omega, by omega⟩, resample_draw_contract 3 2 rng0 (by omega) (by omega)⟩

theorem zipWith_mul_replicate_sum (values : List ℚ) (c : ℚ) :
    (List.zipWith (fun v w => v * w) values (List.replicate values.length c)).sum
      = values.sum * c := by
  induction values with
  | nil => simp
  | cons x xs ih =>
    simp only [List.length_cons, List.replicate_succ, List.zipWith_cons_cons,
      List.sum_cons, ih]
    ring

/-- C8 counterexample: with all errors equal (to zero) the weighted mean is
not the arithmetic mean of the values.  (In the f64 source the weights are
infinite and the result is NaN; in the rational model the division-by-zero
convention yields 0; under neither is it the mean 2.) -/
theorem weighted_mean_zero_errors_not_mean :
    (weighted_mean [1, 3] [0, 0]).1 ≠ mean [1, 3] := by
  norm_num [weighted_mean, mean]

/-- C8 amended: for a nonempty value list and all errors equal and nonzero,
the first component of the weighted mean is the plain arithmetic mean. -/
theorem weighted_mean_equal_errors_is_mean (values : List ℚ) (e : ℚ)
    (_hne : values ≠ []) (he : e ≠ 0) :
    (weighted_mean values (List.replicate values.length e)).1 = mean values := by
  unfold weighted_mean mean
  simp only [List.map_replicate]
  rw [zipWith_mul_replicate_sum, List.sum_replicate, nsmul_eq_mul]
  have hw : (1 : ℚ) / e ^ 2 ≠ 0 := one_div_ne_zero (pow_ne_zero 2 he)
  exact mul_div_mul_right _ _ hw

/-- Witness for the amended C8 at values [1, 3], common error 2. -/
theorem weighted_mean_equal_errors_is_mean_witness :
    (([1, 3] : List ℚ) ≠ [] ∧ (2 : ℚ) ≠ 0) ∧
    (weighted_mean [1, 3] (List.replicate ([1, 3] : List ℚ).length 2)).1 = mean [1, 3] :=
  ⟨⟨by simp, by norm_num⟩,
   weighted_mean_equal_errors_is_mean [1, 3] 2 (by simp) (by norm_num)⟩

/-- C6: when a flow series is combined with a correlator series, the nconfs
equality is the one setup check of the command: the run aborts with the
failed assert exactly when the two configuration counts differ, and
otherwise proceeds to the trials. -/
theorem nconfs_mismatch_aborts_before_trials
    (em : List ℚ → ℕ → ℕ → ℚ → Except Unit ℚ) (cw : List ℚ → List ℚ → List ℚ)
    (w0fn : List ℚ → ℚ → ℚ) (channel : Series) (wf : WilsonFlowData)
    (global_t binwidth n_boot t_min t_max : ℕ) (eps w_ref : ℚ)
    (rngs : ℕ → ℕ → ℕ) :
    bootstrap_fits_with_wf_command em cw w0fn channel wf global_t binwidth
        n_boot t_min t_max eps w_ref rngs
      = Except.error RunError.assertFailed ↔ channel.nconfs ≠ wf.tc.nconfs := by
  unfold bootstrap_fits_with_wf_command
  by_cases h : channel.nconfs = wf.tc.nconfs
  · rw [if_pos h]
    constructor
    · intro hc
      exfalso
      cases hcoll : collectOpt ((List.range n_boot).map (fun b =>
          bootstrap_fits_with_wf_trial em cw w0fn channel wf global_t binwidth
            t_min t_max eps w_ref (rngs b))) with
      | none => rw [hcoll] at hc; simp at hc
      | some outcomes => rw [hcoll] at hc; simp at hc
    · intro hne; exact absurd h hne
  · rw [if_neg h]
    simp [h]

/-- C5 counterexample: with global period 8 the valid separations are
1 <= tau <= 3, yet a run requesting the window [1, 7] passes setup and
completes normally: no setup check rejects the out-of-range window. -/
theorem invalid_window_passes_setup :
    ¬ (7 ≤ 8 / 2 - 1) ∧
    (compute_effective_mass_command em_const ch_five 8 1 1 (1 / 1000) 1 7 rngs0).isOk = true :=
  ⟨by omega, by decide⟩

/-- C5 amended: no setup check validates the requested time-separation
window.  compute-effective-mass aborts at setup exactly when the folding
invariant global_t = 2 * (each_len - 1) fails, whatever the window, and
bootstrap-fits performs no setup check at all. -/
theorem setup_aborts_iff_folding_assert :
    (∀ (em : List ℚ → ℕ → ℕ → ℚ → Except Unit ℚ) (channel : Series)
        (global_t binwidth n_boot : ℕ) (eps : ℚ) (t_min t_max : ℕ)
        (rngs : ℕ → ℕ → ℕ → ℕ),
      compute_effective_mass_command em channel global_t binwidth n_boot eps t_min t_max rngs
          = Except.error RunError.assertFailed
        ↔ global_t ≠ (channel.each_len - 1) * 2) ∧
    (∀ (em : List ℚ → ℕ → ℕ → ℚ → Except Unit ℚ) (channel : Series)
        (global_t binwidth n_boot t_min t_max : ℕ) (eps : ℚ)
        (rngs : ℕ → ℕ → ℕ),
      bootstrap_fits_command em channel global_t binwidth n_boot t_min t_max eps rngs
        ≠ Except.error RunError.assertFailed) := by
  constructor
  · intro em channel global_t binwidth n_boot eps t_min t_max rngs
    unfold compute_effective_mass_command
    by_cases h : global_t = (channel.each_len - 1) * 2
    · rw [if_pos h]
      constructor
      · intro hc
        exfalso
        cases hstats : cem_stats em channel global_t binwidth n_boot t_max eps rngs with
        | none => rw [hstats] at hc; simp at hc
        | some stats =>
          rw [hstats] at hc
          cases hrows : effective_mass_rows stats n_boot t_min t_max with
          | none => simp [hrows] at hc
          | some rows => simp [hrows] at hc
      · intro hne; exact absurd h hne
    · rw [if_neg h]
      simp [h]
  · intro em channel global_t binwidth n_boot t_min t_max eps rngs
    unfold bootstrap_fits_command
    cases hcoll : collectOpt ((List.range n_boot).map (fun b =>
        bootstrap_fits_trial em channel global_t binwidth t_min t_max eps (rngs b))) with
    | none => simp
    | some outcomes => simp

/-- C9: a ratio trial generates its one shared draw from the numerator
channel's nconfs and uses it to index the denominator's rows with no check
of the denominator's configuration count: whenever the numerator stage
succeeds but the draw holds an index beyond the denominator table, the
denominator row lookup is out of range and the trial panics. -/
theorem ratio_denominator_nconfs_unchecked
    (em : List ℚ → ℕ → ℕ → ℚ → Except Unit ℚ) (num den : Series)
    (global_t binwidth n_tmin n_tmax d_tmin d_tmax : ℕ) (eps : ℚ)
    (rng : ℕ → ℕ) (m : Measurement) (masses : List ℚ)
    (hm : num.get_subsample_mean_stderr_from_samples (get_samples num.nconfs binwidth rng)
      = some m)
    (hmasses : mass_loop em m.values global_t n_tmin n_tmax eps = Except.ok masses)
    (hoob : ∃ i ∈ get_samples num.nconfs binwidth rng, den.data.length ≤ i) :
    bootstrap_fits_ratio_trial em num den global_t binwidth n_tmin n_tmax
      d_tmin d_tmax eps rng = none := by
  unfold bootstrap_fits_ratio_trial bootstrap_fits_ratio_trial_draws
  simp only [hm, hmasses, subsample_none_of_oob den _ hoob]

/-- Witness for C9: a two-configuration numerator, a one-configuration
denominator, and a draw that picks configuration 1. -/
theorem ratio_denominator_nconfs_unchecked_witness :
    (num_two.get_subsample_mean_stderr_from_samples (get_samples num_two.nconfs 1 rng1)
        = some ⟨[2], [0]⟩ ∧
      mass_loop em_const (Measurement.values ⟨[2], [0]⟩) 4 1 1 (1 / 1000) = Except.ok [1] ∧
      ∃ i ∈ get_samples num_two.nconfs 1 rng1, den_one.data.length ≤ i) ∧
    bootstrap_fits_ratio_trial em_const num_two den_one 4 1 1 1 1 1 (1 / 1000) rng1 = none := by
  have h1 : num_two.get_subsample_mean_stderr_from_samples (get_samples num_two.nconfs 1 rng1)
      = some ⟨[2], [0]⟩ := by
    norm_num [Series.get_subsample_mean_stderr_from_samples, get_samples, chunk, chunkAux,
      collectOpt, mean, standard_error_sq, standard_deviation_sq, num_two, rng1,
      List.range_succ]
  have h2 : mass_loop em_const (Measurement.values ⟨[2], [0]⟩) 4 1 1 (1 / 1000)
      = Except.ok [1] := by
    norm_num [mass_loop, collectE, em_const, List.range', Except.map]
  have h3 : ∃ i ∈ get_samples num_two.nconfs 1 rng1, den_one.data.length ≤ i := by decide
  exact ⟨⟨h1, h2, h3⟩,
    ratio_denominator_nconfs_unchecked em_const num_two den_one 4 1 1 1 1 1 (1 / 1000)
      rng1 ⟨[2], [0]⟩ [1] h1 h2 h3⟩

/-- C10: trials run for every tau from 1 to t_max whatever t_min is, the
aggregate for tau is stored at position tau - 1, and the serialization loop
reads position tau - 1 for each tau in [t_min, t_max]; with t_min = 0 the
usize subtraction underflows and the command panics instead of producing
rows. -/
theorem effective_mass_t_min_zero_panics
    (em : List ℚ → ℕ → ℕ → ℚ → Except Unit ℚ) (channel : Series)
    (global_t binwidth n_boot t_max : ℕ) (eps : ℚ) (rngs : ℕ → ℕ → ℕ → ℕ)
    (hwf : series_wf channel) (hassert : global_t = (channel.each_len - 1) * 2) :
    (∃ stats, cem_stats em channel global_t binwidth n_boot t_max eps rngs = some stats ∧
        stats.length = t_max ∧
        ∀ i : ℕ, i < t_max →
          stats[i]? = cem_tau_stats em channel global_t binwidth n_boot (i + 1) eps
            (rngs (i + 1))) ∧
    compute_effective_mass_command em channel global_t binwidth n_boot eps 0 t_max rngs
      = Except.error RunError.rowIndexError := by
  have htau : ∀ (tau : ℕ) (rng2 : ℕ → ℕ → ℕ),
      (cem_tau_stats em channel global_t binwidth n_boot tau eps rng2).isSome := by
    intro tau rng2
    unfold cem_tau_stats
    have hall : ∀ o ∈ (List.range n_boot).map
        (fun b => cem_trial em channel global_t binwidth tau eps (rng2 b)), o.isSome := by
      intro o ho
      rw [List.mem_map] at ho
      obtain ⟨b, _, rfl⟩ := ho
      unfold cem_trial Series.get_subsample_mean_stderr
      have hlt : ∀ i ∈ get_samples channel.nconfs binwidth (rng2 b),
          i < channel.data.length := by
        intro i hi
        rw [hwf.1]
        exact get_samples_mem_lt _ _ _ i hi
      obtain ⟨m, hm⟩ := subsample_isSome channel
        (get_samples channel.nconfs binwidth (rng2 b)) hlt
      rw [hm]
      rfl
    obtain ⟨res, hres⟩ := collectOpt_isSome_of_all hall
    rw [hres]
    rfl
  have hstats : ∃ stats,
      cem_stats em channel global_t binwidth n_boot t_max eps rngs = some stats := by
    unfold cem_stats
    apply collectOpt_isSome_of_all
    intro o ho
    rw [List.mem_map] at ho
    obtain ⟨i, _, rfl⟩ := ho
    exact htau (i + 1) (rngs (i + 1))
  obtain ⟨stats, hstats⟩ := hstats
  have hget := collectOpt_get (hstats.symm ▸ rfl :
    collectOpt ((List.range t_max).map (fun i =>
      cem_tau_stats em channel global_t binwidth n_boot (i + 1) eps (rngs (i + 1))))
      = some stats)
  refine ⟨⟨stats, hstats, ?_, ?_⟩, ?_⟩
  · rw [hget.1]
    simp
  · intro i hi
    obtain ⟨st, hst⟩ := Option.isSome_iff_exists.mp (htau (i + 1) (rngs (i + 1)))
    have hli : ((List.range t_max).map (fun i =>
        cem_tau_stats em channel global_t binwidth n_boot (i + 1) eps (rngs (i + 1))))[i]?
        = some (some st) := by
      rw [List.getElem?_map, List.getElem?_range hi]
      simp [hst]
    rw [hget.2 i st hli, hst]
  · unfold compute_effective_mass_command
    rw [if_pos hassert, hstats]
    have hrows : effective_mass_rows stats n_boot 0 t_max = none := by
      unfold effective_mass_rows
      apply collectOpt_eq_none_of_mem
      rw [List.mem_map]
      refine ⟨0, ?_, by simp⟩
      rw [List.mem_range']
      exact ⟨0, by omega, by omega⟩
    simp [hrows]

/-- Witness for C10 at a one-configuration channel with period 8,
t_max = 1 and t_min = 0. -/
theorem effective_mass_t_min_zero_panics_witness :
    (series_wf ch_five ∧ 8 = (ch_five.each_len - 1) * 2) ∧
    ((∃ stats, cem_stats em_const ch_five 8 1 1 1 (1 / 1000) rngs0 = some stats ∧
        stats.length = 1 ∧
        ∀ i : ℕ, i < 1 →
          stats[i]? = cem_tau_stats em_const ch_five 8 1 1 (i + 1) (1 / 1000)
            (rngs0 (i + 1))) ∧
      compute_effective_mass_command em_const ch_five 8 1 1 (1 / 1000) 0 1 rngs0
        = Except.error RunError.rowIndexError) :=
  ⟨⟨by decide, by decide⟩,
   effective_mass_t_min_zero_panics em_const ch_five 8 1 1 1 (1 / 1000) rngs0
     (by decide) (by decide)⟩

/-- C3 counterexample: at a concrete input whose W series never crosses the
reference value inside the grid, it is not the case that the joint trial
records a distinguishable per-trial failure: whatever numeric value the
(f64-returning) calculate_w0 call produced, the trial succeeds. -/
theorem w0_no_crossing_not_counted_as_failure :
    has_crossing (cw_id [5, 6] wf_flat.t) 100 = false ∧
    (wf_flat.get_subsample_mean_stderr_from_samples
        (get_samples ch_one.nconfs 1 rng0) WilsonFlowObservables.T2Esym).map Measurement.values
      = some [5, 6] ∧
    ¬ (∀ w0fn : List ℚ → ℚ → ℚ,
        bootstrap_fits_with_wf_trial em_const cw_id w0fn ch_one wf_flat 2 1 1 1 (1 / 1000) 100 rng0
          = some none) := by
  refine ⟨?_, ?_, ?_⟩
  · norm_num [has_crossing, cw_id, wf_flat, List.range_succ]
  · norm_num [WilsonFlowData.get_subsample_mean_stderr_from_samples,
      Series.get_subsample_mean_stderr_from_samples, get_samples, chunk, chunkAux,
      collectOpt, mean, standard_error_sq, standard_deviation_sq, wf_flat, ch_one, rng0,
      List.range_succ]
  · intro h
    exact absurd (h w0_zero) (by decide)

/-- C3 amended: the flow-scale call returns a plain numeric value, so no
per-trial failure is attributable to it: a with-wf trial is recorded as
failed exactly when some effective-mass solve in its window fails, whatever
the flow result, and calculate_w0_command yields one numeric sample for
every one of its n_boot trials, with no failure tally. -/
theorem with_wf_trial_failure_iff_effective_mass :
    (∀ (em : List ℚ → ℕ → ℕ → ℚ → Except Unit ℚ) (cw : List ℚ → List ℚ → List ℚ)
        (w0fn : List ℚ → ℚ → ℚ) (channel : Series) (wf : WilsonFlowData)
        (global_t binwidth t_min t_max : ℕ) (eps w_ref : ℚ) (rng : ℕ → ℕ)
        (m_wf m_ch : Measurement),
      wf.get_subsample_mean_stderr_from_samples (get_samples channel.nconfs binwidth rng)
          WilsonFlowObservables.T2Esym = some m_wf →
      channel.get_subsample_mean_stderr_from_samples (get_samples channel.nconfs binwidth rng)
          = some m_ch →
      (bootstrap_fits_with_wf_trial em cw w0fn channel wf global_t binwidth t_min t_max
            eps w_ref rng = some none
        ↔ ¬ ∀ tau ∈ List.range' t_min (t_max + 1 - t_min), ∃ v,
            em m_ch.values global_t tau eps = Except.ok v)) ∧
    (∀ (cw : List ℚ → List ℚ → List ℚ) (w0fn : List ℚ → ℚ → ℚ) (wf : WilsonFlowData)
        (binwidth n_boot : ℕ) (w_ref : ℚ) (rngs : ℕ → ℕ → ℕ) (res : List ℚ),
      calculate_w0_command cw w0fn wf binwidth n_boot w_ref rngs = some res →
      res.length = n_boot) := by
  constructor
  · intro em cw w0fn channel wf global_t binwidth t_min t_max eps w_ref rng m_wf m_ch hwfm hchm
    unfold bootstrap_fits_with_wf_trial bootstrap_fits_with_wf_trial_draws
    simp only [hwfm, hchm]
    unfold mass_loop
    cases hml : collectE ((List.range' t_min (t_max + 1 - t_min)).map
        (fun tau => em m_ch.values global_t tau eps)) with
    | error e =>
      simp only
      constructor
      · intro _ hforall
        have hmem : ∀ x ∈ (List.range' t_min (t_max + 1 - t_min)).map
            (fun tau => em m_ch.values global_t tau eps), ∃ v, x = Except.ok v := by
          rw [List.forall_mem_map]
          exact hforall
        obtain ⟨res, hres⟩ := (collectE_ok_iff _).mpr hmem
        rw [hres] at hml
        cases hml
      · intro _; trivial
    | ok masses =>
      simp only
      constructor
      · intro hcontra; simp at hcontra
      · intro hneg
        exfalso
        apply hneg
        have := (collectE_ok_iff ((List.range' t_min (t_max + 1 - t_min)).map
            (fun tau => em m_ch.values global_t tau eps))).mp ⟨masses, hml⟩
        rw [List.forall_mem_map] at this
        exact this
  · intro cw w0fn wf binwidth n_boot w_ref rngs res h
    unfold calculate_w0_command at h
    have hlen := (collectOpt_get h).1
    simpa using hlen

/-- Witness for the amended C3: a solver that never converges makes the
concrete trial fail, and the equivalence holds at that instance. -/
theorem with_wf_trial_failure_iff_effective_mass_witness :
    (wf_flat.get_subsample_mean_stderr_from_samples (get_samples ch_one.nconfs 1 rng0)
        WilsonFlowObservables.T2Esym = some ⟨[5, 6], [0, 0]⟩ ∧
      ch_one.get_subsample_mean_stderr_from_samples (get_samples ch_one.nconfs 1 rng0)
        = some ⟨[1, 1], [0, 0]⟩) ∧
    (bootstrap_fits_with_wf_trial em_fail cw_id w0_zero ch_one wf_flat 2 1 1 1 (1 / 1000) 100 rng0
        = some none
      ↔ ¬ ∀ tau ∈ List.range' 1 (1 + 1 - 1), ∃ v,
          em_fail (Measurement.values ⟨[1, 1], [0, 0]⟩) 2 tau (1 / 1000) = Except.ok v) := by
  have h1 : wf_flat.get_subsample_mean_stderr_from_samples (get_samples ch_one.nconfs 1 rng0)
      WilsonFlowObservables.T2Esym = some ⟨[5, 6], [0, 0]⟩ := by
    norm_num [WilsonFlowData.get_subsample_mean_stderr_from_samples,
      Series.get_subsample_mean_stderr_from_samples, get_samples, chunk, chunkAux,
      collectOpt, mean, standard_error_sq, standard_deviation_sq, wf_flat, ch_one, rng0,
      List.range_succ]
  have h2 : ch_one.get_subsample_mean_stderr_from_samples (get_samples ch_one.nconfs 1 rng0)
      = some ⟨[1, 1], [0, 0]⟩ := by
    norm_num [Series.get_subsample_mean_stderr_from_samples, get_samples, chunk, chunkAux,
      collectOpt, mean, standard_error_sq, standard_deviation_sq, ch_one, rng0,
      List.range_succ]
  exact ⟨⟨h1, h2⟩,
    with_wf_trial_failure_iff_effective_mass.1 em_fail cw_id w0_zero ch_one wf_flat
      2 1 1 1 (1 / 1000) 100 rng0 ⟨[5, 6], [0, 0]⟩ ⟨[1, 1], [0, 0]⟩ h1 h2⟩
